import Mathlib

/-!
Verification development for the `fbe` Bun HTTP router (`src/index.ts`).

The embedding models, faithfully to the TypeScript source:
* the pattern compiler inside `Router.register` (`path.split('/:')` for the
  parameter keys and `path.replace(/:[^\s\/]+/g, '([^/]+)')` for the anchored
  matching regex),
* the route table (a JS `Map` from method to an ordered array of routes),
* the first-match dispatch loop of `Router.serveRoute`,
* the request enrichment of `Router.populateData` (params, query, bearer
  token, body payload),
* the response normalizer `Router.response` (including its JS-semantics
  quirks: truthiness, `typeof`, property access on primitives, and
  `RegExp.test` coercing `undefined` to the string "undefined"),
* the static file fallback `Router.serveStatic` with live-reload injection,
* the `fetch` dispatch of `Router.serve`.

JS string primitives (`split`, `replace`, `trim`, `startsWith`, `slice`) are
implemented here directly on character lists so that every definition is
executable by kernel reduction.

JS runtime primitives (the JSON parser behind `req.json()`, the form decoder
behind `req.formData()`, `req.arrayBuffer()`, and the filesystem behind
`Bun.file`) are external collaborators; they enter the model as explicit
inputs (`BodyModel`, `FileSys`) describing what those primitives yield for
the request at hand.
-/

namespace Fbe

/-- The character class `\s` of JS regexes and of `String.prototype.trim`
(ASCII part; the strings of this repository contain no exotic whitespace). -/
def isSpaceJS (c : Char) : Bool :=
  c == ' ' || c == '\t' || c == '\n' || c == '\r' || c == '\x0b' || c == '\x0c'

/-- Splitting a character list on a non-empty separator, leftmost
non-overlapping occurrences, as JS `String.prototype.split` does.  The fuel
only bounds the recursion; one unit is spent per consumed character, so any
fuel above the input length is sufficient. -/
def splitChars (sep : List Char) : Nat → List Char → List Char → List (List Char)
  | 0, acc, xs => [acc.reverse ++ xs]
  | _ + 1, acc, [] => [acc.reverse]
  | fuel + 1, acc, x :: xs =>
    if sep.isPrefixOf (x :: xs) then
      acc.reverse :: splitChars sep fuel [] ((x :: xs).drop sep.length)
    else
      splitChars sep fuel (x :: acc) xs

/-- JS `s.split(sep)` for a non-empty string separator. -/
def jsSplit (s sep : String) : List String :=
  (splitChars sep.data (s.data.length + 1) [] s.data).map String.mk

/-- JS `s.includes(sub)` for a non-empty needle: `sub` occurs in `s` exactly
when splitting on it yields more than one piece. -/
def strIncludes (s sub : String) : Bool :=
  (jsSplit s sub).length != 1

/-- JS `s.replace(pat, rep)` with a plain-string pattern: replaces the first
occurrence of `pat` in `s` by `rep` (the replacement strings used in the
source contain no `$` patterns). -/
def strReplaceFirst (s pat rep : String) : String :=
  match jsSplit s pat with
  | [] => s
  | [_] => s
  | piece :: rest => piece ++ rep ++ String.intercalate pat rest

/-- JS `s.startsWith(pre)`. -/
def jsStartsWith (s pre : String) : Bool :=
  pre.data.isPrefixOf s.data

/-- JS `s.endsWith(suf)`. -/
def jsEndsWith (s suf : String) : Bool :=
  suf.data.reverse.isPrefixOf s.data.reverse

/-- JS `s.slice(n)` for a non-negative index. -/
def jsDrop (s : String) (n : Nat) : String :=
  String.mk (s.data.drop n)

/-- JS `s.trim()`. -/
def jsTrim (s : String) : String :=
  String.mk (((s.data.dropWhile isSpaceJS).reverse.dropWhile isSpaceJS).reverse)

/-- JS `s[i]`: the i-th character, or `undefined` (`none`) past the end. -/
def jsCharAt (s : String) (i : Nat) : Option Char :=
  s.data.get? i

/-- A token of the compiled route regex `^path.replace(/:[^\s\/]+/g, '([^/]+)')$`:
either one literal character or one capture group `([^/]+)`. -/
inductive RTok where
  | lit : Char → RTok
  | cap : RTok
  deriving Repr, DecidableEq

/-- Core of `compileToks`, with fuel (one unit per consumed character). -/
def compileToksF : Nat → List Char → List RTok
  | 0, _ => []
  | _ + 1, [] => []
  | fuel + 1, ':' :: rest =>
    let name := rest.takeWhile (fun c => !isSpaceJS c && c != '/')
    if name.isEmpty then RTok.lit ':' :: compileToksF fuel rest
    else RTok.cap :: compileToksF fuel (rest.drop name.length)
  | fuel + 1, c :: rest => RTok.lit c :: compileToksF fuel rest

/-- The regex built by `Router.register`: scanning the template left to
right, each maximal run `:` followed by one or more non-space non-`/`
characters becomes a capture group `([^/]+)`; every other character is
matched literally.  (The source does not escape regex metacharacters in
literal positions; the templates examined by the claims contain none.) -/
def compileToks (l : List Char) : List RTok :=
  compileToksF (l.length + 1) l

/-- First success of `f` over a list, in order (regex backtracking order). -/
def firstSome {α β : Type} (f : α → Option β) : List α → Option β
  | [] => none
  | a :: as =>
    match f a with
    | some b => some b
    | none => firstSome f as

/-- Anchored matching of the compiled token list against a character list,
returning the capture groups.  `cap` behaves like the greedy `([^/]+)` with
backtracking: the longest candidate is tried first.  One unit of fuel is
spent per consumed token, so any fuel above the token count is sufficient. -/
def matchToks : Nat → List RTok → List Char → Option (List (List Char))
  | 0, _, _ => none
  | _ + 1, [], xs => if xs.isEmpty then some [] else none
  | _ + 1, RTok.lit _ :: _, [] => none
  | fuel + 1, RTok.lit c :: ts, x :: xs =>
    if x == c then matchToks fuel ts xs else none
  | fuel + 1, RTok.cap :: ts, xs =>
    let m := (xs.takeWhile (fun c => c != '/')).length
    firstSome
      (fun n => (matchToks fuel ts (xs.drop n)).map (fun caps => xs.take n :: caps))
      ((List.range m).map (fun i => m - i))

/-- `pathname.match(route.regex)` for the anchored route regex: `some caps`
on a match (`caps` are the capture groups, i.e. `match[1], match[2], ...`),
`none` when the pathname does not match. -/
def regexMatch (toks : List RTok) (p : String) : Option (List String) :=
  (matchToks (toks.length + 1) toks p.data).map (fun l => l.map (fun cs => String.mk cs))

/-- JS object property read on a record modelled as an ordered field list:
`some v` when the key is present. -/
def objGet {α : Type} (m : List (String × α)) (k : String) : Option α :=
  (m.find? (fun p => p.1 == k)).map (fun p => p.2)

/-- JS object property write: an existing key is updated in place, a new
key is appended (JS objects preserve insertion order of string keys). -/
def objSet {α : Type} (m : List (String × α)) (k : String) (v : α) : List (String × α) :=
  if m.any (fun p => p.1 == k) then m.map (fun p => if p.1 == k then (k, v) else p)
  else m ++ [(k, v)]

mutual

/-- A runtime JS value, as far as the router manipulates them: primitives,
records, arrays, `Buffer`s and Bun file objects (content, MIME type, size).
Function values (JSX components with a function-typed `type`) are outside
the model; no claim exercises them. -/
inductive JSVal where
  | str : String → JSVal
  | num : Int → JSVal
  | bool : Bool → JSVal
  | null : JSVal
  | undefined : JSVal
  | obj : JSFields → JSVal
  | arr : JSList → JSVal
  | buffer : List Nat → JSVal
  | file : String → String → Nat → JSVal
  deriving DecidableEq

/-- The ordered fields of a JS record. -/
inductive JSFields where
  | nil : JSFields
  | cons : String → JSVal → JSFields → JSFields
  deriving DecidableEq

/-- The elements of a JS array. -/
inductive JSList where
  | nil : JSList
  | cons : JSVal → JSList → JSList
  deriving DecidableEq

end

/-- Builds a record's field list from a plain list (notation helper). -/
def JSFields.ofList : List (String × JSVal) → JSFields
  | [] => .nil
  | p :: ps => .cons p.1 p.2 (JSFields.ofList ps)

/-- JS record field read: the first field with the given key. -/
def JSFields.get : JSFields → String → Option JSVal
  | .nil, _ => none
  | .cons k v rest, key => if k == key then some v else JSFields.get rest key

/-- JS record field write: an existing key is updated in place, a new key
is appended (JS objects preserve insertion order of string keys). -/
def JSFields.set : JSFields → String → JSVal → JSFields
  | .nil, key, v => .cons key v .nil
  | .cons k w rest, key, v =>
    if k == key then .cons k v rest else .cons k w (JSFields.set rest key v)

/-- The fields as a plain list. -/
def JSFields.toList : JSFields → List (String × JSVal)
  | .nil => []
  | .cons k v rest => (k, v) :: JSFields.toList rest

/-- The array elements as a plain list. -/
def JSList.toList : JSList → List JSVal
  | .nil => []
  | .cons v rest => v :: JSList.toList rest

/-- JS truthiness (`NaN` is not representable in this integer model). -/
def truthy : JSVal → Bool
  | .str s => !s.data.isEmpty
  | .num n => n != 0
  | .bool b => b
  | .null => false
  | .undefined => false
  | .obj _ => true
  | .arr _ => true
  | .buffer _ => true
  | .file _ _ _ => true

/-- JS `typeof`. -/
def jsTypeof : JSVal → String
  | .str _ => "string"
  | .num _ => "number"
  | .bool _ => "boolean"
  | .undefined => "undefined"
  | .null => "object"
  | .obj _ => "object"
  | .arr _ => "object"
  | .buffer _ => "object"
  | .file _ _ _ => "object"

/-- `null` or `undefined` (both join as the empty string inside arrays). -/
def isNullish : JSVal → Bool
  | .null => true
  | .undefined => true
  | _ => false

mutual

/-- JS `String(v)` coercion (`Buffer` decoding of raw bytes is outside the
model; no claim exercises it). -/
def jsToString : JSVal → String
  | .str s => s
  | .num n => toString n
  | .bool b => if b then "true" else "false"
  | .null => "null"
  | .undefined => "undefined"
  | .obj _ => "[object Object]"
  | .buffer _ => ""
  | .file _ _ _ => "[object Blob]"
  | .arr xs => jsListToString xs

/-- JS `Array.prototype.toString`: elements joined by commas, with
`null`/`undefined` elements joining as empty strings. -/
def jsListToString : JSList → String
  | .nil => ""
  | .cons v .nil => if isNullish v then "" else jsToString v
  | .cons v (.cons w rest) =>
    (if isNullish v then "" else jsToString v) ++ "," ++ jsListToString (.cons w rest)

end

end Fbe

deriving instance DecidableEq for Except

namespace Fbe

/-- An error thrown by the request pipeline: a JS `TypeError`, or a JSON
parse failure escaping `req.json()`. -/
inductive JSErr where
  | typeError : String → JSErr
  | parseError : String → JSErr
  deriving Repr, DecidableEq

/-- JS property read `v[k]`: throws a `TypeError` on `null`/`undefined`,
yields the field (or `undefined`) on records, the metadata fields on a Bun
file object, and `undefined` on every other value the router touches. -/
def getProp : JSVal → String → Except JSErr JSVal
  | .null, k => .error (.typeError ("Cannot read properties of null (reading " ++ k ++ ")"))
  | .undefined, k => .error (.typeError ("Cannot read properties of undefined (reading " ++ k ++ ")"))
  | .obj fs, k => .ok ((JSFields.get fs k).getD .undefined)
  | .file _ t n, k =>
    .ok (if k == "size" then .num (Int.ofNat n) else if k == "type" then .str t else .undefined)
  | _, _ => .ok .undefined

/-- JSON string literal quoting, as `JSON.stringify` performs it. -/
def jsonQuote (s : String) : String :=
  "\"" ++ String.join (s.data.map (fun c =>
    if c == '"' then "\\\""
    else if c == '\\' then "\\\\"
    else if c == '\n' then "\\n"
    else if c == '\r' then "\\r"
    else if c == '\t' then "\\t"
    else String.singleton c)) ++ "\""

mutual

/-- `JSON.stringify`; `none` is the `undefined` result (for a top-level
`undefined`).  `undefined`-valued record fields are omitted, `undefined`
array entries serialize as `null`. -/
def jsonStringify : JSVal → Option String
  | .str s => some (jsonQuote s)
  | .num n => some (toString n)
  | .bool b => some (if b then "true" else "false")
  | .null => some "null"
  | .undefined => none
  | .arr xs => some ("[" ++ jsonStringifyList xs ++ "]")
  | .obj fs => some ("\x7b" ++ jsonStringifyFields fs ++ "\x7d")
  | .buffer bs =>
    some ("\x7b\"type\":\"Buffer\",\"data\":[" ++
      String.intercalate "," (bs.map (fun b => toString b)) ++ "]\x7d")
  | .file _ _ _ => some "\x7b\x7d"

/-- Array elements of `JSON.stringify`, comma separated. -/
def jsonStringifyList : JSList → String
  | .nil => ""
  | .cons v .nil => (jsonStringify v).getD "null"
  | .cons v (.cons w rest) =>
    (jsonStringify v).getD "null" ++ "," ++ jsonStringifyList (.cons w rest)

/-- Record fields of `JSON.stringify`, comma separated, `undefined`-valued
fields omitted. -/
def jsonStringifyFields : JSFields → String
  | .nil => ""
  | .cons k v rest =>
    match jsonStringify v with
    | none => jsonStringifyFields rest
    | some sv =>
      let entry := jsonQuote k ++ ":" ++ sv
      let restS := jsonStringifyFields rest
      if restS == "" then entry else entry ++ "," ++ restS

end

mutual

/-- The nesting depth of a value (fuel bound for `render`). -/
def JSVal.depth : JSVal → Nat
  | .obj fs => JSFields.depth fs + 1
  | .arr xs => JSList.depth xs + 1
  | _ => 1

/-- The largest depth of a field value. -/
def JSFields.depth : JSFields → Nat
  | .nil => 0
  | .cons _ v rest => max (JSVal.depth v) (JSFields.depth rest)

/-- The largest depth of an array element. -/
def JSList.depth : JSList → Nat
  | .nil => 0
  | .cons v rest => max (JSVal.depth v) (JSList.depth rest)

end

/-- Destructuring read `element.k` on a value already known truthy (so the
`TypeError` of `null`/`undefined` cannot occur): the field, or `undefined`. -/
def propOr (element : JSVal) (k : String) : JSVal :=
  match getProp element k with
  | .ok v => v
  | .error _ => .undefined

/-- The attribute string of the `render` helper in `Router.response`:
`Object.entries(props)` minus `children`, each serialized as `name="value"`,
joined by single spaces.  (`Object.entries` of a primitive yields no
relevant entries.) -/
def renderAttrs (props : JSVal) : String :=
  match props with
  | .obj fs =>
    String.intercalate " "
      (((JSFields.toList fs).filter (fun p => p.1 != "children")).map
        (fun p => p.1 ++ "=\"" ++ jsToString p.2 ++ "\""))
  | _ => ""

/-- The `render` helper of `Router.response`: falsy values render empty,
strings and numbers verbatim, arrays as the concatenation of their
renderings, and any other value as a tag built from its `type` and `props`
fields, with `props.children` rendered recursively.  The fuel only bounds
the recursion; each recursive call descends at least one nesting level, so
any fuel at or above `JSVal.depth` is sufficient.  (A function-typed `type`
is not representable; no claim exercises `render`.) -/
def render : Nat → JSVal → String
  | 0, _ => ""
  | fuel + 1, element =>
    if !truthy element then ""
    else
      match element with
      | .str s => s
      | .num n => toString n
      | .arr xs => String.join ((JSList.toList xs).map (render fuel))
      | _ =>
        let ty := propOr element "type"
        let props := propOr element "props"
        let attributes := if truthy props then renderAttrs props else ""
        let childVal := if isNullish props then JSVal.undefined else propOr props "children"
        let children := if truthy childVal then render fuel childVal else ""
        "<" ++ jsToString ty ++ (if attributes == "" then "" else " " ++ attributes) ++ ">" ++
          children ++ "</" ++ jsToString ty ++ ">"

/-- An HTTP response as the router builds them: a body string and the
`Content-Type` header, when one is set. -/
structure Resp where
  body : String
  contentType : Option String
  deriving Repr, DecidableEq

/-- The `json` header constant of the source. -/
def jsonCT : String := "application/json"

/-- The `html` header constant of the source (written exactly as in the
source, including its malformed charset parameter). -/
def htmlCT : String := "text/html;utf-8"

/-- The `text` header constant of the source. -/
def textCT : String := "text/plain"

/-- The media type of a `Content-Type` header value: the part before any
`;` parameter. -/
def mediaType (ct : String) : String :=
  String.mk (ct.data.takeWhile (fun c => c != ';'))

/-- `/^[a-z!]/i.test(x)` applied to a character-or-`undefined`:
`RegExp.test` coerces `undefined` to the string "undefined", whose first
character `u` matches `[a-z]`. -/
def testLetterBang : Option Char → Bool
  | none => true
  | some c => c.isAlpha || c == '!'

/-- The `isHtmlContent` helper of `Router.response`.  It calls
`body.trim()`, so any non-string argument throws a `TypeError`. -/
def isHtmlContent : JSVal → Except JSErr Bool
  | .str s =>
    let trimmed := jsTrim s
    .ok (jsStartsWith trimmed "<" && !jsStartsWith trimmed "<svg" &&
      testLetterBang (jsCharAt trimmed 1))
  | _ => .error (.typeError "body.trim is not a function")

/-- `new Response(body)` with no headers: a Bun file streams with its own
content type; any other value is coerced to a string. -/
def passthroughResp : JSVal → Resp
  | .file content t _ => { body := content, contentType := some t }
  | v => { body := jsToString v, contentType := none }

/-- `Router.response`: the response normalizer.  Follows the source line by
line: the `body.size` pass-through check, then the `typeof body === 'object'`
branch (render when `body.type` is truthy, otherwise `JSON.stringify`, whose
`undefined` result would coerce to the body "undefined"), then the string
branches through `isHtmlContent`. -/
def response (body : JSVal) : Except JSErr Resp := do
  let size ← getProp body "size"
  if truthy size then
    return passthroughResp body
  else if jsTypeof body == "object" then do
    let ty ← getProp body "type"
    if truthy ty then
      return { body := render (JSVal.depth body) body, contentType := some htmlCT }
    else
      return { body := (jsonStringify body).getD "undefined", contentType := some jsonCT }
  else do
    let h ← isHtmlContent body
    if h then
      return { body := jsToString body, contentType := some htmlCT }
    else
      return { body := jsToString body, contentType := some textCT }

/-- What the runtime body-reading primitives (`req.json()`, `req.formData()`,
`req.arrayBuffer()`) would yield for the request at hand.  These are external
collaborators of the router (Bun's request implementation); the router only
chooses which one to invoke. -/
structure BodyModel where
  jsonResult : Except String JSVal
  formPairs : List (String × String)
  bytes : List Nat
  deriving DecidableEq

/-- A request body for requests whose body is never successfully parsed as
anything (empty body: JSON parsing of it fails). -/
def emptyBody : BodyModel :=
  { jsonResult := .error "Unexpected end of JSON input", formPairs := [], bytes := [] }

/-- The fields `Router.populateData` installs on the request object.
`none` models a field that was never assigned (JS `undefined`). -/
structure ReqFields where
  params : List (String × Option String)
  query : List (String × String)
  bearerToken : Option String
  payload : Option JSVal
  data : Option JSVal
  deriving DecidableEq

/-- The `req.params` construction of `Router.populateData`:
`route.keys.reduce((acc, key, index) => { acc[key] = match[index + 1]; ... }, {})`.
`caps.get? i` is capture group `match[i + 1]`; `none` models an assignment
of `undefined` (a key without a corresponding capture group). -/
def extractParams (keys : List String) (caps : List String) : List (String × Option String) :=
  (keys.enum).foldl (fun acc ik => objSet acc ik.2 (caps.get? ik.1)) []

/-- The `query` construction: `searchParams.forEach((value, key) => query[key] = value)`;
later occurrences of a key overwrite earlier ones. -/
def extractQuery (pairs : List (String × String)) : List (String × String) :=
  pairs.foldl (fun acc kv => objSet acc kv.1 kv.2) []

/-- The bearer-token extraction: set only when the `authorization` header
starts with the literal `Bearer `, to the rest of the header trimmed. -/
def extractBearer (authHeader : Option String) : Option String :=
  match authHeader with
  | some a => if jsStartsWith a "Bearer " then some (jsTrim (jsDrop a 7)) else none
  | none => none

/-- One step of `formData.forEach((value, key) => { req.data[key] = value })`:
writing a property of `req.data`.  When `data` was never assigned, this is a
property write on `undefined` and throws a `TypeError`.  (A write on a
non-record object is not tracked by the model; `data` can only be `undefined`
here unless a middleware set it.) -/
def setDataProp (st : ReqFields) (k v : String) : Except JSErr ReqFields :=
  match st.data with
  | none => .error (.typeError "Cannot set properties of undefined")
  | some (.obj fs) => .ok { st with data := some (.obj (JSFields.set fs k (.str v))) }
  | some _ => .ok st

/-- The payload section of `Router.populateData`: dispatch on substring
tests of the `Content-Type` value.  `application/json` assigns `req.payload`
from `req.json()` (a parse failure escapes as an error); `form` iterates
`req.formData()` into `req.data`; anything else assigns the raw byte buffer
to `req.data`. -/
def populatePayload (st : ReqFields) (contentType : String) (b : BodyModel) :
    Except JSErr ReqFields :=
  if strIncludes contentType "application/json" then
    match b.jsonResult with
    | .ok v => .ok { st with payload := some v }
    | .error msg => .error (.parseError msg)
  else if strIncludes contentType "form" then
    b.formPairs.foldlM (fun s kv => setDataProp s kv.1 kv.2) st
  else
    .ok { st with data := some (.buffer b.bytes) }

/-- `Router.populateData`: params from the route keys and capture groups,
query from the URL search parameters, bearer token from the `authorization`
header, then the body payload (`req.headers.get('content-type') || ''`
turns an absent header into the empty string). -/
def populateData (keys : List String) (caps : List String)
    (queryPairs : List (String × String)) (authHeader : Option String)
    (contentTypeHeader : Option String) (b : BodyModel) : Except JSErr ReqFields :=
  let st : ReqFields :=
    { params := extractParams keys caps
      query := extractQuery queryPairs
      bearerToken := extractBearer authHeader
      payload := none
      data := none }
  populatePayload st (contentTypeHeader.getD "") b

/-- A compiled route as `Router.register` stores it: the compiled regex, the
parameter keys from `path.split('/:').slice(1)`, and the handler.  A handler
is modelled by its outcome on the request under consideration: the returned
value, or the message it throws/rejects with. -/
structure Route where
  regex : List RTok
  keys : List String
  handler : Except String JSVal
  deriving DecidableEq

/-- The router's route table: the JS `Map` from method to an ordered array
of routes, as an insertion-ordered association list. -/
abbrev RouteTable := List (String × List Route)

/-- `this.routes.has(method)`. -/
def mapHas (t : RouteTable) (m : String) : Bool :=
  t.any (fun p => p.1 == m)

/-- `this.routes.get(method)`. -/
def mapGetRT (t : RouteTable) (m : String) : Option (List Route) :=
  (t.find? (fun p => p.1 == m)).map (fun p => p.2)

/-- `this.routes.set(method, v)`: a JS `Map` updates an existing key in
place and appends a new key in insertion order. -/
def mapSet (t : RouteTable) (m : String) (v : List Route) : RouteTable :=
  if mapHas t m then t.map (fun p => if p.1 == m then (m, v) else p)
  else t ++ [(m, v)]

/-- `Router.register`: compile `path` (keys from `path.split('/:').slice(1)`,
regex from `path.replace(/:[^\s\/]+/g, '([^/]+)')` anchored), create the
method's array when missing, and push the new route at its end. -/
def register (t : RouteTable) (method path : String) (handler : Except String JSVal) :
    RouteTable :=
  let keys := (jsSplit path "/:").drop 1
  let regex := compileToks path.data
  let t1 := if mapHas t method then t else mapSet t method []
  mapSet t1 method (((mapGetRT t1 method).getD []) ++ [⟨regex, keys, handler⟩])

/-- An error escaping the request pipeline: a JS error from enrichment or
normalization, or an error raised by a handler. -/
inductive PipeErr where
  | js : JSErr → PipeErr
  | handler : String → PipeErr
  deriving Repr, DecidableEq

/-- The route-lookup content of the `serveRoute` loop: the first route in
the list whose regex matches the pathname, with its capture groups. -/
def findRoute (pathname : String) : List Route → Option (Route × List String)
  | [] => none
  | r :: rs =>
    match regexMatch r.regex pathname with
    | some caps => some (r, caps)
    | none => findRoute pathname rs

/-- An incoming HTTP request, reduced to what the router inspects: method,
URL pathname and query pairs, the two headers it reads, and the body. -/
structure ReqModel where
  method : String
  pathname : String
  queryPairs : List (String × String)
  authHeader : Option String
  contentTypeHeader : Option String
  body : BodyModel

/-- The `for (const route of routeList)` loop of `Router.serveRoute`: on the
first regex match, populate the request fields, run the handler and
normalize its result; every error escapes (there is no catch).  Falling off
the loop yields `undefined` (`none`). -/
def serveRouteLoop (req : ReqModel) : List Route → Except PipeErr (Option Resp)
  | [] => .ok none
  | r :: rs =>
    match regexMatch r.regex req.pathname with
    | none => serveRouteLoop req rs
    | some caps =>
      match populateData r.keys caps req.queryPairs req.authHeader req.contentTypeHeader
          req.body with
      | .error e => .error (PipeErr.js e)
      | .ok _fields =>
        match r.handler with
        | .error msg => .error (PipeErr.handler msg)
        | .ok v =>
          match response v with
          | .error e => .error (PipeErr.js e)
          | .ok resp => .ok (some resp)

/-- `Router.serveRoute`: probe the route table by method
(`this.routes.get(method) || []`) and run the match loop. -/
def serveRoute (t : RouteTable) (req : ReqModel) : Except PipeErr (Option Resp) :=
  serveRouteLoop req ((mapGetRT t req.method).getD [])

/-- A static file as the filesystem collaborator serves it: content and the
MIME type Bun infers from the extension. -/
structure FileData where
  content : String
  ftype : String
  deriving Repr, DecidableEq

/-- The public directory: existing paths and their files. -/
abbrev FileSys := List (String × FileData)

/-- `Bun.file(path)` plus `await file.exists()`. -/
def fileAt (fs : FileSys) (path : String) : Option FileData :=
  objGet fs path

/-- An existing Bun file as a JS value (its `size` is its content length). -/
def bunFileVal (fd : FileData) : JSVal :=
  .file fd.content fd.ftype fd.content.length

/-- `join(dir, p)` from `path` for the shapes the router uses (no `..` or
repeated-separator normalization is needed for them). -/
def pathJoin (dir p : String) : String :=
  if jsStartsWith p "/" then dir ++ p else dir ++ "/" ++ p

/-- `pathname.replace(/\/$/, 'index.html')`: a trailing slash character is
replaced by the string `index.html`. -/
def replaceTrailingSlash (p : String) : String :=
  if jsEndsWith p "/" then String.mk (p.data.dropLast) ++ "index.html" else p

/-- The live-reload `script` constant of the source (verbatim, including the
trailing newline of the template literal). -/
def script : String :=
  "<script>(()=>\x7blet l=location,s=sessionStorage,t=\x27ws://\x27+l.host,o=()=>\x7blet e=new WebSocket(t);e.onopen=()=>\x7bs.getItem(\"r\")||(s.setItem(\"r\",1),l.reload())\x7d,e.onmessage=()=>l.reload(),e.onclose=()=>setTimeout(()=>\x7bs.removeItem(\"r\"),o()\x7d,2e3),e.onerror=n=>console.error(\"WebSocket error:\",n)\x7d;o()\x7d)()</script>\n"

/-- The `addScript` helper of `Router.serveStatic`: a file whose MIME type
does not contain `html` is returned unchanged; otherwise the file's text
with the script inserted before the first `</head>` is returned (a string,
which `response` then content-sniffs). -/
def addScript (fd : FileData) : JSVal :=
  if strIncludes fd.ftype "html" = false then bunFileVal fd
  else .str (strReplaceFirst fd.content "</head>" (script ++ "</head>"))

/-- The recognized router options (`publicDir` defaults to `public` at the
destructuring in the source; the model takes the destructured value). -/
structure Options where
  publicDir : String
  livereload : Bool
  spa : Bool
  deriving Repr, DecidableEq

/-- `Router.serveStatic`: only GET requests are served; a trailing-slash
pathname is rewritten by `replaceTrailingSlash`; an existing file is served
(through `addScript` when `livereload` is set), else under `spa` the public
`index.html` is served through `addScript` (reading a missing SPA index
throws at runtime). -/
def serveStatic (opts : Options) (fs : FileSys) (req : ReqModel) :
    Except PipeErr (Option Resp) :=
  if req.method != "GET" then .ok none
  else
    let pathname := replaceTrailingSlash req.pathname
    let indexFd := fileAt fs (pathJoin opts.publicDir "index.html")
    match fileAt fs (pathJoin opts.publicDir pathname) with
    | some fd =>
      ((response (if opts.livereload then addScript fd else bunFileVal fd)).mapError
        PipeErr.js).map some
    | none =>
      if opts.spa then
        match indexFd with
        | some idx => ((response (addScript idx)).mapError PipeErr.js).map some
        | none => .error (.js (.typeError "ENOENT"))
      else .ok none

/-- The `fetch` handler of `Router.serve`, after the upgrade check and with
an empty middleware chain:
`(await serveRoute(req)) || (await serveStatic(req))`, else the fixed
`new Response('404', text)`.  Errors propagate: the source wraps nothing in
a try/catch. -/
def serveFetch (opts : Options) (fs : FileSys) (t : RouteTable) (req : ReqModel) :
    Except PipeErr Resp :=
  match serveRoute t req with
  | .error e => .error e
  | .ok (some resp) => .ok resp
  | .ok none =>
    match serveStatic opts fs req with
    | .error e => .error e
    | .ok (some resp) => .ok resp
    | .ok none => .ok { body := "404", contentType := some textCT }


/-! ## Claim-specific concrete fixtures -/

set_option maxRecDepth 16384

/-- C1 fixture: the table after `register('GET', '/users/:id/posts', h)`. -/
def c1table : RouteTable :=
  register [] "GET" "/users/:id/posts" (.ok .null)

/-- C1 fixture: the GET route list of `c1table`. -/
def c1routes : List Route :=
  (mapGetRT c1table "GET").getD []

/-- C2 fixture: the compiled route of `/users/:id`. -/
def c2r1 : Route :=
  ⟨compileToks "/users/:id".data, ["id"], .ok (.str "one")⟩

/-- C2 fixture: the compiled route of `/users/me`. -/
def c2r2 : Route :=
  ⟨compileToks "/users/me".data, [], .ok (.str "two")⟩

/-- C2 fixture: `/users/:id` registered before `/users/me`, both GET. -/
def c2table : RouteTable :=
  register (register [] "GET" "/users/:id" (.ok (.str "one"))) "GET" "/users/me" (.ok (.str "two"))

/-- C2 fixture: the GET route list of `c2table`. -/
def c2routes : List Route :=
  (mapGetRT c2table "GET").getD []

/-- C4 fixture: one GET route whose handler raises. -/
def c4table : RouteTable :=
  register [] "GET" "/boom" (.error "boom")

/-- C4 fixture: a GET request to the raising route. -/
def c4req : ReqModel :=
  ⟨"GET", "/boom", [], none, none, emptyBody⟩

/-- C9 fixture: a handler-rendered HTML page (no script inside). -/
def c9hpage : String :=
  "<html><head></head><body></body></html>"

/-- C9 fixture: a GET route whose handler returns the HTML page string. -/
def c9table : RouteTable :=
  register [] "GET" "/page" (.ok (.str c9hpage))

/-- C9 fixture: a GET request to that route. -/
def c9req : ReqModel :=
  ⟨"GET", "/page", [], none, none, emptyBody⟩

/-- The HTML test of `isHtmlContent` in claim-level terms: the trimmed
string starts with `<`, does not start with `<svg`, and either has no second
character at all (the `undefined`-coercion quirk) or its second character is
an ASCII letter or `!`. -/
def htmlHeuristic (s : String) : Bool :=
  jsStartsWith (jsTrim s) "<" && !jsStartsWith (jsTrim s) "<svg" &&
    (match jsCharAt (jsTrim s) 1 with
     | none => true
     | some c => c.isAlpha || c == '!')

/-! ## Helper lemmas -/

/-- `response` on a string: the body is the string itself and only the
content type depends on the `isHtmlContent` test. -/
theorem response_str (s : String) :
    response (.str s) =
      if jsStartsWith (jsTrim s) "<" && !jsStartsWith (jsTrim s) "<svg" &&
          testLetterBang (jsCharAt (jsTrim s) 1) then
        .ok { body := s, contentType := some htmlCT }
      else
        .ok { body := s, contentType := some textCT } := rfl

/-- `response` never changes a string body. -/
theorem response_str_body (s : String) :
    (response (.str s)).map (fun r => r.body) = Except.ok s := by
  rw [response_str]
  split <;> rfl

/-- `mapHas` on a cons cell. -/
theorem mapHas_cons (a : String × List Route) (t : RouteTable) (m : String) :
    mapHas (a :: t) m = (a.1 == m || mapHas t m) := by
  simp [mapHas]

/-- `mapGetRT` on a cons cell. -/
theorem mapGetRT_cons (a : String × List Route) (t : RouteTable) (m : String) :
    mapGetRT (a :: t) m = if a.1 == m then some a.2 else mapGetRT t m := by
  by_cases h : (a.1 == m) = true
  · simp [mapGetRT, List.find?_cons_of_pos _ h, h]
  · simp [mapGetRT, List.find?_cons_of_neg _ h, h]

/-- A table without the key holds nothing at it. -/
theorem mapGetRT_of_not_has (t : RouteTable) (m : String) (h : mapHas t m = false) :
    mapGetRT t m = none := by
  induction t with
  | nil => rfl
  | cons a as ih =>
    rw [mapHas_cons, Bool.or_eq_false_iff] at h
    rw [mapGetRT_cons]
    simp [h.1, ih h.2]

/-- `mapSet` on a present key rewrites the entry in place. -/
theorem mapSet_of_has (t : RouteTable) (m : String) (v : List Route)
    (h : mapHas t m = true) :
    mapSet t m v = t.map (fun p => if p.1 == m then (m, v) else p) := by
  simp [mapSet, h]

/-- `mapSet` on an absent key appends the entry. -/
theorem mapSet_of_not_has (t : RouteTable) (m : String) (v : List Route)
    (h : mapHas t m = false) :
    mapSet t m v = t ++ [(m, v)] := by
  simp [mapSet, h]

/-- Appending a fresh key makes it retrievable. -/
theorem mapGetRT_append_single_self (t : RouteTable) (m : String) (v : List Route)
    (h : mapHas t m = false) :
    mapGetRT (t ++ [(m, v)]) m = some v := by
  induction t with
  | nil => simp [mapGetRT_cons]
  | cons a as ih =>
    rw [mapHas_cons, Bool.or_eq_false_iff] at h
    rw [List.cons_append, mapGetRT_cons]
    simp [h.1, ih h.2]

/-- Rewriting a present key in place makes the new value retrievable. -/
theorem mapGetRT_map_upd_self (t : RouteTable) (m : String) (v : List Route)
    (h : mapHas t m = true) :
    mapGetRT (t.map (fun p => if p.1 == m then (m, v) else p)) m = some v := by
  induction t with
  | nil => simp [mapHas] at h
  | cons a as ih =>
    rw [mapHas_cons] at h
    rw [List.map_cons]
    by_cases ha : (a.1 == m) = true
    · rw [if_pos ha, mapGetRT_cons]
      simp
    · have h' : mapHas as m = true := by
        cases hm : mapHas as m
        · exfalso
          rw [hm, Bool.or_false] at h
          exact ha h
        · rfl
      rw [if_neg ha, mapGetRT_cons, if_neg ha]
      exact ih h'

/-- Appending a fresh key leaves every other key unchanged. -/
theorem mapGetRT_append_single_other (t : RouteTable) (m m' : String) (v : List Route)
    (hne : m' ≠ m) :
    mapGetRT (t ++ [(m, v)]) m' = mapGetRT t m' := by
  have hmm : (m == m') = false := beq_eq_false_iff_ne.mpr (fun hh => hne hh.symm)
  induction t with
  | nil => simp [mapGetRT_cons, hmm, mapGetRT]
  | cons a as ih =>
    rw [List.cons_append, mapGetRT_cons, ih, ← mapGetRT_cons]

/-- Rewriting a key in place leaves every other key unchanged. -/
theorem mapGetRT_map_upd_other (t : RouteTable) (m m' : String) (v : List Route)
    (hne : m' ≠ m) :
    mapGetRT (t.map (fun p => if p.1 == m then (m, v) else p)) m' = mapGetRT t m' := by
  have hmm : (m == m') = false := beq_eq_false_iff_ne.mpr (fun hh => hne hh.symm)
  induction t with
  | nil => rfl
  | cons a as ih =>
    rw [List.map_cons]
    by_cases ha : (a.1 == m) = true
    · have ham : a.1 = m := eq_of_beq ha
      have h2 : (a.1 == m') = false := by
        rw [ham]
        exact hmm
      rw [if_pos ha, mapGetRT_cons, mapGetRT_cons]
      rw [if_neg (by simp [hmm]), if_neg (by simp [h2])]
      exact ih
    · rw [if_neg ha, mapGetRT_cons, ih, ← mapGetRT_cons]

/-- `mapSet` stores the value at its key. -/
theorem mapGetRT_mapSet_self (t : RouteTable) (m : String) (v : List Route) :
    mapGetRT (mapSet t m v) m = some v := by
  cases hb : mapHas t m with
  | false =>
    rw [mapSet_of_not_has t m v hb]
    exact mapGetRT_append_single_self t m v hb
  | true =>
    rw [mapSet_of_has t m v hb]
    exact mapGetRT_map_upd_self t m v hb

/-- `mapSet` leaves every other key unchanged. -/
theorem mapGetRT_mapSet_other (t : RouteTable) (m m' : String) (v : List Route)
    (hne : m' ≠ m) :
    mapGetRT (mapSet t m v) m' = mapGetRT t m' := by
  cases hb : mapHas t m with
  | false =>
    rw [mapSet_of_not_has t m v hb]
    exact mapGetRT_append_single_other t m m' v hne
  | true =>
    rw [mapSet_of_has t m v hb]
    exact mapGetRT_map_upd_other t m m' v hne

/-- `findRoute` picks a route all of whose predecessors miss. -/
theorem findRoute_append (p : String) (pre post : List Route) (r : Route)
    (caps : List String)
    (hmiss : ∀ r' ∈ pre, regexMatch r'.regex p = none)
    (hhit : regexMatch r.regex p = some caps) :
    findRoute p (pre ++ r :: post) = some (r, caps) := by
  induction pre with
  | nil => simp [findRoute, hhit]
  | cons a as ih =>
    have ha := hmiss a (List.mem_cons_self a as)
    have hrest : ∀ r' ∈ as, regexMatch r'.regex p = none := fun r' hr =>
      hmiss r' (List.mem_cons_of_mem a hr)
    simpa [findRoute, ha] using ih hrest

/-! ## Claim theorems -/

/-- C1 (refuted by the code; the spec's parameter-name contract is the
intent): registering the template `/users/:id/posts`, whose parameter names
per the spec are `["id"]`, stores the single key `id/posts` (the remainder
of `path.split('/:')`), so although `/users/42/posts` matches with capture
`42`, the populated `req.params` binds `id/posts` and leaves `id` absent. -/
theorem c1_param_names_bug :
    c1routes.map (fun r => r.keys) = [["id/posts"]] ∧
    findRoute "/users/42/posts" c1routes =
      some (⟨compileToks "/users/:id/posts".data, ["id/posts"], .ok .null⟩, ["42"]) ∧
    (populateData ["id/posts"] ["42"] [] none none emptyBody).map
      (fun st => (objGet st.params "id", objGet st.params "id/posts")) =
      .ok (none, some (some "42")) := by
  exact ⟨by decide, by decide, by decide⟩

/-- C2: route lookup returns the earliest-registered matching pattern of the
method: in general a route is the lookup result whenever all routes
registered before it miss the pathname; concretely, with `/users/:id`
registered before `/users/me` under GET, a GET `/users/me` is answered by
the first route (handler value `one`) with `params.id = "me"`, never by the
literal second route. -/
theorem c2_first_match_wins :
    (∀ (p : String) (pre post : List Route) (r : Route) (caps : List String),
        (∀ r' ∈ pre, regexMatch r'.regex p = none) →
        regexMatch r.regex p = some caps →
        findRoute p (pre ++ r :: post) = some (r, caps)) ∧
    c2routes = [c2r1, c2r2] ∧
    findRoute "/users/me" c2routes = some (c2r1, ["me"]) ∧
    serveRoute c2table ⟨"GET", "/users/me", [], none, none, emptyBody⟩ =
      .ok (some ⟨"one", some textCT⟩) ∧
    (populateData c2r1.keys ["me"] [] none none emptyBody).map
      (fun st => objGet st.params "id") = .ok (some (some "me")) := by
  refine ⟨findRoute_append, by decide, by decide, by decide, by decide⟩

/-- C2 witness: the general first-match statement instantiated at the
`/users/me` example. -/
theorem c2_first_match_wins_witness :
    findRoute "/users/me" ([] ++ c2r1 :: [c2r2]) = some (c2r1, ["me"]) :=
  c2_first_match_wins.1 "/users/me" [] [c2r2] c2r1 ["me"]
    (fun r' hr => absurd hr (List.not_mem_nil r')) (by decide)

/-- C3 (refuted by the code; the README's `req.payload` contract is the
intent): a `form` content type never sets `req.payload` — the code writes
the parsed fields into `req.data`, which is undefined on a fresh request, so
the first assignment throws a `TypeError`; a non-JSON non-form content type
sets `req.data` to the byte buffer, again leaving `req.payload` unset; only
the `application/json` branch sets `req.payload`. -/
theorem c3_payload_field_bug :
    populateData [] [] [] none (some "application/x-www-form-urlencoded")
      { jsonResult := .error "x", formPairs := [("a", "1")], bytes := [] } =
      .error (.typeError "Cannot set properties of undefined") ∧
    (populateData [] [] [] none (some "text/plain")
      { jsonResult := .error "x", formPairs := [], bytes := [104, 105] }).map
      (fun st => (st.payload, st.data)) = .ok (none, some (.buffer [104, 105])) ∧
    (populateData [] [] [] none (some "application/json")
      { jsonResult := .ok (.obj (.cons "a" (.str "1") .nil)), formPairs := [],
        bytes := [] }).map (fun st => st.payload) =
      .ok (some (.obj (.cons "a" (.str "1") .nil))) := by
  exact ⟨by decide, by decide, by decide⟩

/-- C4 (refuted by the code; the spec itself notes that the original lets
such errors escape): a handler error is caught nowhere — `serveRoute` and
the `fetch` dispatcher propagate it instead of producing any response for
the request, let alone a 500-class one. -/
theorem c4_handler_error_propagates :
    serveRoute c4table c4req = .error (.handler "boom") ∧
    serveFetch ⟨"public", false, false⟩ [] c4table c4req = .error (.handler "boom") := by
  exact ⟨by decide, by decide⟩

/-- C5 counterexample: the plain record with the single field `size: 1` has
no renderable-element shape, yet `response` takes the `body.size`
pass-through branch: the body is the string coercion `[object Object]` with
no `Content-Type` header, not the JSON serialization with
`application/json`. -/
theorem c5_size_object_counterexample :
    response (.obj (.cons "size" (.num 1) .nil)) =
      .ok { body := "[object Object]", contentType := none } ∧
    (none : Option String) ≠ some jsonCT ∧
    "[object Object]" ≠ (jsonStringify (.obj (.cons "size" (.num 1) .nil))).getD "undefined" := by
  exact ⟨by decide, by decide, by decide⟩

/-- C5 amended: every plain record whose `size` field is absent or falsy and
whose `type` field is absent or falsy (no renderable-element shape) is
serialized to JSON with `Content-Type: application/json`. -/
theorem c5_plain_object_json (fs : JSFields)
    (hsize : truthy ((JSFields.get fs "size").getD .undefined) = false)
    (hty : truthy ((JSFields.get fs "type").getD .undefined) = false) :
    response (.obj fs) =
      .ok { body := (jsonStringify (.obj fs)).getD "undefined",
            contentType := some jsonCT } := by
  have h1 : response (.obj fs) =
      if truthy ((JSFields.get fs "size").getD .undefined) then .ok (passthroughResp (.obj fs))
      else if truthy ((JSFields.get fs "type").getD .undefined) then
        .ok { body := render (JSVal.depth (.obj fs)) (.obj fs), contentType := some htmlCT }
      else
        .ok { body := (jsonStringify (.obj fs)).getD "undefined",
              contentType := some jsonCT } := rfl
  rw [h1, hsize, hty]
  simp

/-- C5 witness: the spec's example `{ message: "ok" }` serializes to exactly
the prescribed body and content type. -/
theorem c5_plain_object_json_witness :
    response (.obj (.cons "message" (.str "ok") .nil)) =
      .ok { body := "\x7b\"message\":\"ok\"\x7d", contentType := some "application/json" } := by
  rw [c5_plain_object_json (.cons "message" (.str "ok") .nil) (by decide) (by decide)]
  decide

/-- C6 counterexample: the one-character string `<` — trimmed, it starts
with `<` with no following character, so the claim prescribes `text/plain`;
the code coerces the `undefined` second character to the string "undefined"
inside `RegExp.test`, which matches `[a-z]`, and responds `text/html`. -/
theorem c6_lone_angle_counterexample :
    response (.str "<") = .ok { body := "<", contentType := some htmlCT } ∧
    mediaType htmlCT = "text/html" ∧
    mediaType htmlCT ≠ "text/plain" := by
  exact ⟨by decide, by decide, by decide⟩

/-- C6 amended: a string body is returned unchanged, with `text/html`
exactly when the trimmed string starts with `<`, does not start with `<svg`,
and either has no second character at all or its second character is an
ASCII letter or `!`; `text/plain` otherwise.  The spec's two examples
follow concretely. -/
theorem c6_string_content_type :
    (∀ s : String, response (.str s) =
      .ok { body := s, contentType := some (if htmlHeuristic s then htmlCT else textCT) }) ∧
    response (.str "<h1>Hi</h1>") = .ok { body := "<h1>Hi</h1>", contentType := some htmlCT } ∧
    response (.str "Hi") = .ok { body := "Hi", contentType := some textCT } ∧
    mediaType htmlCT = "text/html" ∧
    mediaType textCT = "text/plain" := by
  refine ⟨fun s => ?_, by decide, by decide, by decide, by decide⟩
  rw [response_str]
  have hc : (jsStartsWith (jsTrim s) "<" && !jsStartsWith (jsTrim s) "<svg" &&
      testLetterBang (jsCharAt (jsTrim s) 1)) = htmlHeuristic s := by
    unfold htmlHeuristic testLetterBang
    cases jsCharAt (jsTrim s) 1 <;> rfl
  rw [hc]
  cases hb : htmlHeuristic s <;> simp [hb]

/-- C7 (refuted by the code; the spec's registration-time validation is the
intent): registering `/a/:x/:x`, whose parameter name `x` collides with
itself, raises no error — the route is appended with keys `["x", "x"]`, and
on a match the duplicated name resolves to the last capture. -/
theorem c7_duplicate_params_accepted :
    mapGetRT (register [] "GET" "/a/:x/:x" (.ok .null)) "GET" =
      some [⟨compileToks "/a/:x/:x".data, ["x", "x"], .ok .null⟩] ∧
    (populateData ["x", "x"] ["1", "2"] [] none none emptyBody).map
      (fun st => objGet st.params "x") = .ok (some (some "2")) := by
  exact ⟨by decide, by decide⟩

/-- C8 (refuted by the code; the final plain-text fallback line is the
intent but unreachable for non-strings): a numeric or boolean handler
return value reaches `isHtmlContent`, whose `body.trim()` call throws a
`TypeError`; through the pipeline, a request whose handler returns `42`
fails instead of producing the plain-text response "42" (which is what
string coercion would have given). -/
theorem c8_nonstring_throws :
    response (.num 42) = .error (.typeError "body.trim is not a function") ∧
    response (.bool true) = .error (.typeError "body.trim is not a function") ∧
    serveRoute (register [] "GET" "/n" (.ok (.num 42)))
      ⟨"GET", "/n", [], none, none, emptyBody⟩ =
      .error (.js (.typeError "body.trim is not a function")) ∧
    jsToString (.num 42) = "42" := by
  exact ⟨by decide, by decide, by decide, by decide⟩

/-- C9 counterexample: with `livereload: true`, a handler-rendered HTML
response (served with `text/html` and containing a `</head>` tag) does not
contain the reload script — only the static fallback injects it. -/
theorem c9_handler_html_no_script :
    serveFetch ⟨"public", true, false⟩ [] c9table c9req =
      .ok { body := c9hpage, contentType := some htmlCT } ∧
    strIncludes c9hpage "</head>" = true ∧
    strIncludes c9hpage script = false := by
  exact ⟨by decide, by decide, by decide⟩

/-- C9 amended: with `livereload: true` the reload script is injected into
statically served HTML only: an existing file whose MIME type contains
`html` is served as its content with the script spliced in before the first
`</head>`, while handler-rendered string responses always keep their body
exactly as returned (no injection point exists in `response`). -/
theorem c9_static_injection (opts : Options) (fs : FileSys) (req : ReqModel)
    (fd : FileData)
    (hlr : opts.livereload = true) (hm : req.method = "GET")
    (hslash : jsEndsWith req.pathname "/" = false)
    (hfile : fileAt fs (pathJoin opts.publicDir req.pathname) = some fd)
    (hhtml : strIncludes fd.ftype "html" = true) :
    (serveStatic opts fs req).map (fun o => o.map (fun r => r.body)) =
      .ok (some (strReplaceFirst fd.content "</head>" (script ++ "</head>"))) ∧
    (∀ s : String, (response (.str s)).map (fun r => r.body) = Except.ok s) := by
  refine ⟨?_, response_str_body⟩
  have hpath : replaceTrailingSlash req.pathname = req.pathname := by
    simp [replaceTrailingSlash, hslash]
  have haddScript : addScript fd =
      .str (strReplaceFirst fd.content "</head>" (script ++ "</head>")) := by
    unfold addScript
    rw [hhtml]
    simp
  have hserve : serveStatic opts fs req =
      ((response (addScript fd)).mapError PipeErr.js).map some := by
    simp only [serveStatic, hm, bne_self_eq_false, Bool.false_eq_true, if_false, hpath,
      hfile, hlr, if_true]
  rw [hserve, haddScript, response_str]
  split <;> rfl

/-- C9 witness: the injection instantiated at a concrete one-file public
directory. -/
theorem c9_static_injection_witness :
    (serveStatic ⟨"public", true, false⟩
      [("public/p.html", ⟨"<html><head></head><body></body></html>", "text/html;charset=utf-8"⟩)]
      ⟨"GET", "/p.html", [], none, none, emptyBody⟩).map (fun o => o.map (fun r => r.body)) =
      .ok (some (strReplaceFirst "<html><head></head><body></body></html>" "</head>"
        (script ++ "</head>"))) :=
  (c9_static_injection ⟨"public", true, false⟩
    [("public/p.html", ⟨"<html><head></head><body></body></html>", "text/html;charset=utf-8"⟩)]
    ⟨"GET", "/p.html", [], none, none, emptyBody⟩
    ⟨"<html><head></head><body></body></html>", "text/html;charset=utf-8"⟩
    rfl rfl (by decide) (by decide) (by decide)).1

/-- C10: `register` appends exactly one compiled route at the end of the
method's list (a plain append, so all earlier entries and their order are
unchanged) and leaves every other method's list untouched. -/
theorem c10_register_frame (t : RouteTable) (m p : String) (h : Except String JSVal) :
    mapGetRT (register t m p h) m =
      some (((mapGetRT t m).getD []) ++
        [⟨compileToks p.data, (jsSplit p "/:").drop 1, h⟩]) ∧
    (∀ m' : String, m' ≠ m → mapGetRT (register t m p h) m' = mapGetRT t m') := by
  cases hb : mapHas t m with
  | true =>
    have hreg : register t m p h =
        mapSet t m (((mapGetRT t m).getD []) ++
          [⟨compileToks p.data, (jsSplit p "/:").drop 1, h⟩]) := by
      simp [register, hb]
    rw [hreg]
    exact ⟨mapGetRT_mapSet_self t m _, fun m' hne => mapGetRT_mapSet_other t m m' _ hne⟩
  | false =>
    have hreg : register t m p h =
        mapSet (mapSet t m []) m (((mapGetRT (mapSet t m []) m).getD []) ++
          [⟨compileToks p.data, (jsSplit p "/:").drop 1, h⟩]) := by
      simp [register, hb]
    rw [hreg]
    constructor
    · rw [mapGetRT_mapSet_self, mapGetRT_mapSet_self t m [], mapGetRT_of_not_has t m hb]
      rfl
    · intro m' hne
      rw [mapGetRT_mapSet_other _ _ _ _ hne, mapGetRT_mapSet_other _ _ _ _ hne]

/-- C10 witness: registering a GET route leaves the POST list unchanged. -/
theorem c10_register_frame_witness :
    mapGetRT (register [("POST", [])] "GET" "/a" (.ok .null)) "POST" =
      mapGetRT [("POST", [])] "POST" :=
  (c10_register_frame [("POST", [])] "GET" "/a" (.ok .null)).2 "POST" (by decide)
